/-
  Verification of the casino backend (src/main.py) against its
  natural-language specification.

  Shallow embedding conventions:
  * Currency (`float` in the source) is modelled as `ℚ`; the Python
    `round(x, 2)` is modelled by `round2` below.  Python rounds
    half-to-even on binary floats; no statement in this development
    evaluates a half-cent tie, so the choice of tie-breaking is
    irrelevant to every theorem proved here.
  * The MongoDB collections are modelled as association lists keyed by
    the document id string; `find_one` is `findFirst`, `update_one`
    (which updates the first matching document) is `updateFirst`, and
    `create_document` conses a fresh id onto the collection.
  * Randomness (the roulette draw, the slot reels, the shuffled deck)
    is passed to each handler as an explicit argument, universally
    quantified in the theorems: `random.randint(0, 36)` becomes a
    `Fin 37` argument, `random.choice(symbols)` a `SlotSymbol`
    argument, and the output of `new_deck()` a `List Rank` argument.
  * Card suits never influence any computation in the source
    (`hand_value` strips the suit with `card[:-1]`); a card is
    therefore modelled by its rank alone.
  * An uncaught Python exception (IndexError from `deck.pop()` on an
    empty list, TypeError from subscripting a `None` player) is
    modelled by the `ApiError.crash` constructor, distinct from the
    client-visible `HTTPException`s (404 → `notFound`, 400/422 →
    `badRequest`).
  * `HTTPException` aborts the request; mutations are threaded through
    an explicit `DB` state, and every error branch returns the state
    accumulated so far (in this source, always the unchanged state,
    because every raise precedes every write).
-/
import Mathlib

set_option maxRecDepth 4000

/-! ## Cards and hand scoring (src/main.py lines 33-53) -/

/-- Card ranks `A,2..10,J,Q,K`.  Suits are erased: no computation in the
source ever reads the suit. -/
inductive Rank
  | ace | two | three | four | five | six | seven | eight | nine | ten
  | jack | queen | king
deriving DecidableEq, Repr, Inhabited, Fintype

/-- The `values` dict of `hand_value` (line 42): face cards are 10, the
ace is initially 11. -/
def rankValue : Rank → ℕ
  | .ace => 11
  | .two => 2
  | .three => 3
  | .four => 4
  | .five => 5
  | .six => 6
  | .seven => 7
  | .eight => 8
  | .nine => 9
  | .ten => 10
  | .jack => 10
  | .queen => 10
  | .king => 10

/-- The `while total > 21 and aces:` loop of `hand_value`
(lines 50-52): while the running total busts and an ace is still
counted as 11, re-count one ace as 1. -/
def reduceAces : ℕ → ℕ → ℕ
  | total, 0 => total
  | total, aces + 1 => if 21 < total then reduceAces (total - 10) aces else total

/-- Source: `hand_value` (lines 41-53): sum the rank values (aces as 11), then
reduce aces while the total exceeds 21.  The source accumulates the sum
and the ace count in a single pass; summing and counting separately is
the same function. -/
def hand_value (hand : List Rank) : ℕ :=
  reduceAces ((hand.map rankValue).sum) (hand.count Rank.ace)

/-! ## Money -/

/-- The Python `round(x, 2)` (modulo the half-to-even tie rule, which no
theorem here exercises): round to the nearest multiple of 1/100. -/
def round2 (x : ℚ) : ℚ := (round (x * 100) : ℤ) / 100

/-! ## Store model (the `db` collections of database.py) -/

/-- A `player` document (schemas.py `Player`). -/
structure PlayerRec where
  nickname : String
  balance : ℚ
  vipLevel : ℕ
deriving DecidableEq, Repr

/-- Persisted session status: `settle_blackjack` only ever writes
`"finished"`, and the handlers only ever test `== "playing"`. -/
inductive BJStatus
  | playing
  | finished
deriving DecidableEq, Repr

/-- A `blackjacksession` document (schemas.py `BlackjackSession` plus
the `bet` field that main.py stores in it). -/
structure BJSessionRec where
  playerId : String
  bet : ℚ
  deck : List Rank
  playerHand : List Rank
  dealerHand : List Rank
  status : BJStatus
deriving DecidableEq, Repr

/-- A `bethistory` document (schemas.py `BetHistory`; the free-form
`metadata` dict is omitted — no claim mentions it). -/
structure HistoryRec where
  playerId : String
  game : String
  amount : ℚ
  result : String
  payout : ℚ
deriving DecidableEq, Repr

/-- The database state threaded through each request handler. -/
structure DB where
  players : List (String × PlayerRec)
  sessions : List (String × BJSessionRec)
  history : List HistoryRec
deriving DecidableEq, Repr

/-- Source: `find_one({"_id": ObjectId(id)})`: the first document with the
given id, if any. -/
def findFirst {α : Type} (l : List (String × α)) (id : String) : Option α :=
  (l.find? (fun p => p.1 == id)).map (fun p => p.2)

/-- Source: `update_one({"_id": ObjectId(id)}, {"$set": ...})`: rewrite the
first document with the given id, leave everything else alone. -/
def updateFirst {α : Type} (l : List (String × α)) (id : String) (f : α → α) :
    List (String × α) :=
  match l with
  | [] => []
  | p :: rest => if p.1 = id then (p.1, f p.2) :: rest else p :: updateFirst rest id f

def findPlayer (db : DB) (id : String) : Option PlayerRec :=
  findFirst db.players id

def findSession (db : DB) (id : String) : Option BJSessionRec :=
  findFirst db.sessions id

/-- Source: `db["player"].update_one(..., {"$set": {"balance": b}})`. -/
def setBalance (db : DB) (id : String) (b : ℚ) : DB :=
  { db with players := updateFirst db.players id (fun p => { p with balance := b }) }

/-- Source: `create_document("bethistory", ...)`. -/
def appendHistory (db : DB) (e : HistoryRec) : DB :=
  { db with history := e :: db.history }

/-- Source: `create_document("blackjacksession", session)` with a fresh id. -/
def createSession (db : DB) (id : String) (s : BJSessionRec) : DB :=
  { db with sessions := (id, s) :: db.sessions }

/-- Source: `db["blackjacksession"].update_one(..., {"$set": {"deck": deck,
"dealer_hand": dealer_hand, "status": "finished"}})` (line 293). -/
def updateSessionSettled (db : DB) (id : String) (deck dealerHand : List Rank) : DB :=
  let upd := fun (s : BJSessionRec) =>
    { s with deck := deck, dealerHand := dealerHand, status := BJStatus.finished }
  { db with sessions := updateFirst db.sessions id upd }

/-- Request outcomes that abort the handler: client-visible
`HTTPException`s (404 / 400 / pydantic 422) and uncaught Python
exceptions (`crash`). -/
inductive ApiError
  | notFound (msg : String)
  | badRequest (msg : String)
  | crash (msg : String)
deriving DecidableEq, Repr

/-- An error the client sees as a well-formed 4xx response, as opposed
to an uncaught exception. -/
def ApiError.isClientError : ApiError → Bool
  | .notFound _ => true
  | .badRequest _ => true
  | .crash _ => false

/-! ## Roulette (src/main.py lines 113-164) -/

/-- The request model `RouletteBet` (lines 68-72). -/
structure RouletteBet where
  playerId : String
  amount : ℚ
  betType : String
  value : Option ℕ
deriving DecidableEq, Repr

/-- The response dict of `bet_roulette` (lines 159-164). -/
structure RouletteResp where
  result : Fin 37
  color : String
  payout : ℚ
  balance : ℚ
deriving DecidableEq, Repr

/-- The fixed red set of line 124. -/
def redNumbers : Finset ℕ := {1, 3, 5, 7, 9, 12, 14, 16, 18, 19, 21, 23, 25, 27, 30, 32, 34, 36}

/-- The `colors` dict of lines 124-125: 0 is green, the red set is red,
every other number in 1..36 is black.  The dict domain is exactly
0..36, hence the `Fin 37` argument. -/
def rouletteColor (n : Fin 37) : String :=
  if (n : ℕ) = 0 then "green"
  else if (n : ℕ) ∈ redNumbers then "red" else "black"

/-- The shared success tail of `bet_roulette` (lines 147-164): write the
rounded new balance, append the history record, return the response. -/
def rouletteFinish (db : DB) (bet : RouletteBet) (player : PlayerRec)
    (result : Fin 37) (payout : ℚ) : DB × Except ApiError RouletteResp :=
  let color := rouletteColor result
  let newBalance := player.balance + payout
  let db1 := setBalance db bet.playerId (round2 newBalance)
  let db2 := appendHistory db1
    { playerId := bet.playerId, game := "roulette", amount := bet.amount,
      result := toString result.val ++ " (" ++ color ++ ")", payout := round2 payout }
  (db2, .ok { result := result, color := color, payout := round2 payout,
              balance := round2 newBalance })

/-- Source: `bet_roulette` (lines 113-164), with the random draw
`random.randint(0, 36)` passed as the `result` argument. -/
def bet_roulette (db : DB) (bet : RouletteBet) (result : Fin 37) :
    DB × Except ApiError RouletteResp :=
  match findPlayer db bet.playerId with
  | none => (db, .error (.notFound "Player not found"))
  | some player =>
    if player.balance < bet.amount then (db, .error (.badRequest "Insufficient balance"))
    else
      let color := rouletteColor result
      if bet.betType = "red" ∨ bet.betType = "black" then
        rouletteFinish db bet player result
          (if color = bet.betType then bet.amount else -bet.amount)
      else if bet.betType = "number" then
        match bet.value with
        | none => (db, .error (.badRequest "Value is required for number bet"))
        | some v =>
          rouletteFinish db bet player result
            (if (result : ℕ) = v then bet.amount * 35 else -bet.amount)
      else (db, .error (.badRequest "Invalid bet type"))

/-- The pydantic validation of `RouletteBet` (lines 68-72): `amount`
must be strictly positive, `value` (when present) at most 36; a
negative `value` is likewise rejected by pydantic, which the `ℕ` type
of `value` already encodes. -/
def validRoulette (bet : RouletteBet) : Bool :=
  decide (0 < bet.amount) &&
    (match bet.value with
     | none => true
     | some v => decide (v ≤ 36))

/-- The full request pipeline: pydantic validation (a client-visible
422) and then the handler. -/
def rouletteRequest (db : DB) (bet : RouletteBet) (result : Fin 37) :
    DB × Except ApiError RouletteResp :=
  if validRoulette bet then bet_roulette db bet result
  else (db, .error (.badRequest "request validation failed"))

/-! ## Slots (src/main.py lines 170-206) -/

/-- The six-symbol alphabet of line 179 (cherries, lemon, bell, star,
seven, clover). -/
inductive SlotSymbol
  | cherry | lemon | bell | star | seven | clover
deriving DecidableEq, Repr, Inhabited, Fintype

/-- The emoji literal of each symbol (line 179), used only in the
history record via the join on line 201. -/
def symbolStr : SlotSymbol → String
  | .cherry => "🍒"
  | .lemon => "🍋"
  | .bell => "🔔"
  | .star => "⭐"
  | .seven => "7️⃣"
  | .clover => "🍀"

/-- The request model `SlotsBet` (lines 74-76). -/
structure SlotsBet where
  playerId : String
  amount : ℚ
deriving DecidableEq, Repr

/-- The response dict of `bet_slots` (line 206). -/
structure SlotsResp where
  reels : List SlotSymbol
  payout : ℚ
  balance : ℚ
deriving DecidableEq, Repr

/-- The multiplier logic of lines 182-190.  `len(set(reels))` is the
number of distinct reels, i.e. `reels.dedup.length`; `reels[0]` is
`reels.headI`. -/
def slotsMultiplier (reels : List SlotSymbol) : ℕ :=
  if reels.dedup.length = 1 then
    if reels.headI = SlotSymbol.seven then 20 else 10
  else if reels.dedup.length = 2 then 2
  else 0

/-- Source: `bet_slots` (lines 170-206), with the three
`random.choice(symbols)` draws passed as `r0 r1 r2`. -/
def bet_slots (db : DB) (bet : SlotsBet) (r0 r1 r2 : SlotSymbol) :
    DB × Except ApiError SlotsResp :=
  match findPlayer db bet.playerId with
  | none => (db, .error (.notFound "Player not found"))
  | some player =>
    if player.balance < bet.amount then (db, .error (.badRequest "Insufficient balance"))
    else
      let reels := [r0, r1, r2]
      let payout_mult := slotsMultiplier reels
      let payout := bet.amount * payout_mult - bet.amount
      let newBalance := player.balance + payout
      let db1 := setBalance db bet.playerId (round2 newBalance)
      let db2 := appendHistory db1
        { playerId := bet.playerId, game := "slots", amount := bet.amount,
          result := String.join (reels.map symbolStr), payout := round2 payout }
      (db2, .ok { reels := reels, payout := round2 payout, balance := round2 newBalance })

/-- The pydantic validation of `SlotsBet`: `amount` strictly positive. -/
def validSlots (bet : SlotsBet) : Bool := decide (0 < bet.amount)

/-- Validation plus handler. -/
def slotsRequest (db : DB) (bet : SlotsBet) (r0 r1 r2 : SlotSymbol) :
    DB × Except ApiError SlotsResp :=
  if validSlots bet then bet_slots db bet r0 r1 r2
  else (db, .error (.badRequest "request validation failed"))

/-! ## Blackjack (src/main.py lines 212-340) -/

/-- The request model `BlackjackStart` (lines 78-80). -/
structure BlackjackStart where
  playerId : String
  amount : ℚ
deriving DecidableEq, Repr

/-- The response dict of `settle_blackjack` (lines 304-313). -/
structure BJResp where
  playerHand : List Rank
  dealerHand : List Rank
  pVal : ℕ
  dVal : ℕ
  result : String
  payout : ℚ
  balance : ℚ
  status : String
deriving DecidableEq, Repr

/-- The response of `blackjack_start` (lines 240 and 242): either a
still-playing view (player hand plus the dealer up card, the second
dealer card hidden behind the placeholder), or the settle response when
either initial hand totals 21. -/
inductive StartResp
  | playing (playerHand : List Rank) (dealerUp : Rank)
  | settled (r : BJResp)
deriving DecidableEq, Repr

/-- The Python `list.pop()`: remove and return the LAST element; `none`
models the IndexError on an empty list. -/
def popEnd (l : List Rank) : Option (Rank × List Rank) :=
  match l.getLast? with
  | none => none
  | some c => some (c, l.dropLast)

/-- The dealer-draw loop of `settle_blackjack` (lines 258-259), on the
reversed deck so that `pop`-from-the-end is structural recursion:
while the dealer hand is worth less than 17, append the next card.
`none` models the IndexError when the deck runs out mid-loop. -/
def dealerDrawRev (rdeck hand : List Rank) : Option (List Rank × List Rank) :=
  if hand_value hand < 17 then
    match rdeck with
    | [] => none
    | c :: rest => dealerDrawRev rest (hand ++ [c])
  else some (rdeck, hand)

/-- The dealer-draw loop on the deck in source order (`deck.pop()`
takes the last element): returns the remaining deck and the final
dealer hand. -/
def dealerDraw (deck hand : List Rank) : Option (List Rank × List Rank) :=
  (dealerDrawRev deck.reverse hand).map (fun p => (p.1.reverse, p.2))

/-- The outcome cascade of `settle_blackjack` (lines 264-287): payout
and result label from the two totals and the two hand sizes.  The
source initialises `payout = 0.0, result = "push"` and overwrites them
in an if/elif chain whose final `else` restores the push values; the
if/elif chain below is the same function. -/
def settleOutcome (bet : ℚ) (pVal dVal pLen dLen : ℕ) : ℚ × String :=
  if 21 < pVal then (-bet, "player_bust")
  else if 21 < dVal then (bet, "dealer_bust")
  else if pVal = 21 ∧ pLen = 2 ∧ ¬(dVal = 21 ∧ dLen = 2) then (bet * 1.5, "player_blackjack")
  else if dVal = 21 ∧ dLen = 2 ∧ ¬(pVal = 21 ∧ pLen = 2) then (-bet, "dealer_blackjack")
  else if dVal < pVal then (bet, "player_win")
  else if pVal < dVal then (-bet, "dealer_win")
  else (0, "push")

/-- Source: `settle_blackjack` (lines 245-313).  The missing-player guard is
absent in the source: when the session field `player_id` does not resolve,
line 290 subscripts `None` and the request dies with an uncaught
TypeError (`crash`) — after the dealer draw, before any write. -/
def settle_blackjack (db : DB) (sessionId : String) : DB × Except ApiError BJResp :=
  match findSession db sessionId with
  | none => (db, .error (.notFound "Session not found"))
  | some session =>
    let playerOpt := findPlayer db session.playerId
    let bet := session.bet
    match dealerDraw session.deck session.dealerHand with
    | none => (db, .error (.crash "IndexError: pop from empty list"))
    | some (deck', dealerHand') =>
      let p_val := hand_value session.playerHand
      let d_val := hand_value dealerHand'
      let (payout, result) :=
        settleOutcome bet p_val d_val session.playerHand.length dealerHand'.length
      match playerOpt with
      | none => (db, .error (.crash "TypeError: NoneType is not subscriptable"))
      | some player =>
        let newBalance := player.balance + payout
        let db1 := setBalance db session.playerId (round2 newBalance)
        let db2 := updateSessionSettled db1 sessionId deck' dealerHand'
        let db3 := appendHistory db2
          { playerId := session.playerId, game := "blackjack", amount := bet,
            result := result, payout := round2 payout }
        (db3, .ok { playerHand := session.playerHand, dealerHand := dealerHand',
                    pVal := p_val, dVal := d_val, result := result,
                    payout := round2 payout, balance := round2 newBalance,
                    status := "finished" })

/-- Source: `blackjack_start` (lines 212-242), with the shuffled output
of `new_deck()` passed as `deck0` and the fresh id of `create_document` as
`sessionId`.  `[deck.pop(), deck.pop()]` evaluates left to right, so
the player takes the last two cards off the deck, then the dealer the
next two. -/
def blackjack_start (db : DB) (data : BlackjackStart) (deck0 : List Rank)
    (sessionId : String) : DB × Except ApiError StartResp :=
  match findPlayer db data.playerId with
  | none => (db, .error (.notFound "Player not found"))
  | some player =>
    if player.balance < data.amount then (db, .error (.badRequest "Insufficient balance"))
    else
      match popEnd deck0 with
      | none => (db, .error (.crash "IndexError: pop from empty list"))
      | some (c1, d1) =>
      match popEnd d1 with
      | none => (db, .error (.crash "IndexError: pop from empty list"))
      | some (c2, d2) =>
      match popEnd d2 with
      | none => (db, .error (.crash "IndexError: pop from empty list"))
      | some (c3, d3) =>
      match popEnd d3 with
      | none => (db, .error (.crash "IndexError: pop from empty list"))
      | some (c4, d4) =>
        let player_hand := [c1, c2]
        let dealer_hand := [c3, c4]
        let session : BJSessionRec :=
          { playerId := data.playerId, bet := data.amount, deck := d4,
            playerHand := player_hand, dealerHand := dealer_hand, status := .playing }
        let db1 := createSession db sessionId session
        let p_val := hand_value player_hand
        let d_val := hand_value dealer_hand
        if p_val = 21 ∨ d_val = 21 then
          let out := settle_blackjack db1 sessionId
          (out.1, out.2.map (fun r => StartResp.settled r))
        else (db1, .ok (.playing player_hand dealer_hand.headI))

/-- The pydantic validation of `BlackjackStart`: `amount` strictly
positive. -/
def validStart (data : BlackjackStart) : Bool := decide (0 < data.amount)

/-- Validation plus handler for `/blackjack/start`. -/
def startRequest (db : DB) (data : BlackjackStart) (deck0 : List Rank)
    (sessionId : String) : DB × Except ApiError StartResp :=
  if validStart data then blackjack_start db data deck0 sessionId
  else (db, .error (.badRequest "request validation failed"))

/-- Source: `blackjack_stand` (lines 338-340): unconditionally settle, with no
check of the session status. -/
def blackjack_stand (db : DB) (sessionId : String) : DB × Except ApiError BJResp :=
  settle_blackjack db sessionId

/-! ## Shared arithmetic and store lemmas -/

/-- Source: `round2` is the identity on integer-valued amounts (every concrete
amount evaluated in this file is integer-valued). -/
theorem round2_intCast (n : ℤ) : round2 ((n : ℚ)) = (n : ℚ) := by
  unfold round2
  rw [show ((n : ℚ) * 100) = ((n * 100 : ℤ) : ℚ) by push_cast ; ring, round_intCast]
  push_cast
  field_simp

/-- Rounding to two decimals preserves non-negativity. -/
theorem round2_nonneg {x : ℚ} (hx : 0 ≤ x) : 0 ≤ round2 x := by
  unfold round2
  have h1 : (0 : ℤ) ≤ round (x * 100) := by
    rw [round_eq]
    have : (0 : ℚ) ≤ x * 100 + 1 / 2 := by positivity
    exact Int.floor_nonneg.mpr this
  positivity

/-- Looking up the updated id after `updateFirst` sees the update. -/
theorem findFirst_updateFirst_self {α : Type} (l : List (String × α)) (id : String)
    (f : α → α) : findFirst (updateFirst l id f) id = (findFirst l id).map f := by
  induction l with
  | nil => simp [findFirst, updateFirst]
  | cons p rest ih =>
    by_cases hp : p.1 = id
    · simp [findFirst, updateFirst, hp, List.find?]
    · have hbeq : (p.1 == id) = false := by simpa using hp
      simp only [updateFirst, hp, if_false]
      simpa [findFirst, List.find?, hbeq] using ih

/-- Looking up any other id after `updateFirst` sees the old store. -/
theorem findFirst_updateFirst_other {α : Type} (l : List (String × α)) (id id' : String)
    (f : α → α) (hne : id' ≠ id) :
    findFirst (updateFirst l id f) id' = findFirst l id' := by
  induction l with
  | nil => simp [findFirst, updateFirst]
  | cons p rest ih =>
    by_cases hp : p.1 = id
    · have hbeq : (p.1 == id') = false := by
        simp only [beq_eq_false_iff_ne]
        rw [hp]
        exact fun h => hne h.symm
      simp [findFirst, updateFirst, hp, List.find?, hbeq, hp ▸ hbeq]
    · simp only [updateFirst, hp, if_false]
      by_cases hq : p.1 = id'
      · simp [findFirst, List.find?, hq]
      · have hbeq : (p.1 == id') = false := by simpa using hq
        simpa [findFirst, List.find?, hbeq] using ih

/-- Every entry after `updateFirst` is either an old entry or carries
the updated value. -/
theorem mem_updateFirst {α : Type} {l : List (String × α)} {id : String} {f : α → α}
    {p : String × α} (hp : p ∈ updateFirst l id f) :
    p ∈ l ∨ ∃ q ∈ l, p = (q.1, f q.2) := by
  induction l with
  | nil => simp [updateFirst] at hp
  | cons q rest ih =>
    by_cases hq : q.1 = id
    · simp only [updateFirst, hq, if_true, List.mem_cons] at hp
      rcases hp with h | h
      · exact Or.inr ⟨q, by simp, by simp [h, hq]⟩
      · exact Or.inl (List.mem_cons_of_mem _ h)
    · simp only [updateFirst, hq, if_false, List.mem_cons] at hp
      rcases hp with h | h
      · exact Or.inl (by simp [h])
      · rcases ih h with h' | ⟨r, hr, hr'⟩
        · exact Or.inl (List.mem_cons_of_mem _ h')
        · exact Or.inr ⟨r, List.mem_cons_of_mem _ hr, hr'⟩

/-! ## Inversion of the success paths -/

/-- A successful roulette request passed validation, found the player,
had sufficient funds, and ran the shared success tail with the payout
dictated by the bet type. -/
theorem rouletteRequest_ok {db : DB} {bet : RouletteBet} {result : Fin 37} {db' : DB}
    {resp : RouletteResp}
    (h : rouletteRequest db bet result = (db', Except.ok resp)) :
    ∃ player payout,
      0 < bet.amount ∧
      findPlayer db bet.playerId = some player ∧
      bet.amount ≤ player.balance ∧
      (((bet.betType = "red" ∨ bet.betType = "black") ∧
          payout = (if rouletteColor result = bet.betType then bet.amount else -bet.amount)) ∨
        (bet.betType = "number" ∧ ∃ v, bet.value = some v ∧
          payout = (if (result : ℕ) = v then bet.amount * 35 else -bet.amount))) ∧
      rouletteFinish db bet player result payout = (db', Except.ok resp) := by
  unfold rouletteRequest at h
  by_cases hv : validRoulette bet
  · rw [if_pos hv] at h
    have hamt : 0 < bet.amount := by
      unfold validRoulette at hv
      simp only [Bool.and_eq_true, decide_eq_true_eq] at hv
      exact hv.1
    unfold bet_roulette at h
    cases hp : findPlayer db bet.playerId with
    | none => rw [hp] at h ; exact absurd h (by simp)
    | some player =>
      rw [hp] at h
      simp only at h
      by_cases hb : player.balance < bet.amount
      · rw [if_pos hb] at h ; exact absurd h (by simp)
      · rw [if_neg hb] at h
        by_cases ht : bet.betType = "red" ∨ bet.betType = "black"
        · rw [if_pos ht] at h
          exact ⟨player, _, hamt, rfl, le_of_not_lt hb, Or.inl ⟨ht, rfl⟩, h⟩
        · rw [if_neg ht] at h
          by_cases hn : bet.betType = "number"
          · rw [if_pos hn] at h
            cases hval : bet.value with
            | none => rw [hval] at h ; exact absurd h (by simp)
            | some v =>
              rw [hval] at h
              exact ⟨player, _, hamt, rfl, le_of_not_lt hb,
                Or.inr ⟨hn, v, rfl, rfl⟩, h⟩
          · rw [if_neg hn] at h ; exact absurd h (by simp)
  · rw [if_neg hv] at h ; exact absurd h (by simp)

/-- A successful slots request passed validation, found the player, had
sufficient funds, and paid `amount * multiplier - amount`. -/
theorem slotsRequest_ok {db : DB} {bet : SlotsBet} {r0 r1 r2 : SlotSymbol} {db' : DB}
    {resp : SlotsResp}
    (h : slotsRequest db bet r0 r1 r2 = (db', Except.ok resp)) :
    ∃ player,
      0 < bet.amount ∧
      findPlayer db bet.playerId = some player ∧
      bet.amount ≤ player.balance ∧
      resp.reels = [r0, r1, r2] ∧
      resp.payout = round2 (bet.amount * slotsMultiplier [r0, r1, r2] - bet.amount) ∧
      resp.balance = round2 (player.balance + (bet.amount * slotsMultiplier [r0, r1, r2] - bet.amount)) ∧
      db' = appendHistory
        (setBalance db bet.playerId
          (round2 (player.balance + (bet.amount * slotsMultiplier [r0, r1, r2] - bet.amount))))
        { playerId := bet.playerId, game := "slots", amount := bet.amount,
          result := String.join ([r0, r1, r2].map symbolStr),
          payout := round2 (bet.amount * slotsMultiplier [r0, r1, r2] - bet.amount) } := by
  unfold slotsRequest at h
  by_cases hv : validSlots bet
  · rw [if_pos hv] at h
    have hamt : 0 < bet.amount := by
      unfold validSlots at hv
      simpa using hv
    unfold bet_slots at h
    cases hp : findPlayer db bet.playerId with
    | none => rw [hp] at h ; exact absurd h (by simp)
    | some player =>
      rw [hp] at h
      simp only at h
      by_cases hb : player.balance < bet.amount
      · rw [if_pos hb] at h ; exact absurd h (by simp)
      · rw [if_neg hb] at h
        simp only [Prod.mk.injEq, Except.ok.injEq] at h
        refine ⟨player, hamt, rfl, le_of_not_lt hb, ?_, ?_, ?_, ?_⟩
        · rw [← h.2]
        · rw [← h.2]
        · rw [← h.2]
        · rw [← h.1]
  · rw [if_neg hv] at h ; exact absurd h (by simp)

/-- A successful settlement found the session and the player, ran the
dealer draw to completion, scored both hands, and applied the outcome
cascade; the theorem pins the response and the written state. -/
theorem settle_blackjack_ok {db : DB} {sessionId : String} {db' : DB} {resp : BJResp}
    (h : settle_blackjack db sessionId = (db', Except.ok resp)) :
    ∃ session player deck' dealerHand',
      findSession db sessionId = some session ∧
      findPlayer db session.playerId = some player ∧
      dealerDraw session.deck session.dealerHand = some (deck', dealerHand') ∧
      resp = { playerHand := session.playerHand, dealerHand := dealerHand',
               pVal := hand_value session.playerHand, dVal := hand_value dealerHand',
               result := (settleOutcome session.bet (hand_value session.playerHand)
                 (hand_value dealerHand') session.playerHand.length dealerHand'.length).2,
               payout := round2 (settleOutcome session.bet (hand_value session.playerHand)
                 (hand_value dealerHand') session.playerHand.length dealerHand'.length).1,
               balance := round2 (player.balance + (settleOutcome session.bet
                 (hand_value session.playerHand) (hand_value dealerHand')
                 session.playerHand.length dealerHand'.length).1),
               status := "finished" } ∧
      db' = appendHistory
        (updateSessionSettled
          (setBalance db session.playerId
            (round2 (player.balance + (settleOutcome session.bet
              (hand_value session.playerHand) (hand_value dealerHand')
              session.playerHand.length dealerHand'.length).1)))
          sessionId deck' dealerHand')
        { playerId := session.playerId, game := "blackjack", amount := session.bet,
          result := (settleOutcome session.bet (hand_value session.playerHand)
            (hand_value dealerHand') session.playerHand.length dealerHand'.length).2,
          payout := round2 (settleOutcome session.bet (hand_value session.playerHand)
            (hand_value dealerHand') session.playerHand.length dealerHand'.length).1 } := by
  unfold settle_blackjack at h
  cases hs : findSession db sessionId with
  | none => rw [hs] at h ; exact absurd h (by simp)
  | some session =>
    rw [hs] at h
    simp only at h
    cases hd : dealerDraw session.deck session.dealerHand with
    | none => rw [hd] at h ; exact absurd h (by simp)
    | some dd =>
      rw [hd] at h
      cases hp : findPlayer db session.playerId with
      | none => rw [hp] at h ; exact absurd h (by simp)
      | some player =>
        rw [hp] at h
        simp only [Prod.mk.injEq, Except.ok.injEq] at h
        refine ⟨session, player, dd.1, dd.2, ?_, ?_, ?_, ?_, ?_⟩
        · simp [hs]
        · simp [hp]
        · simp [hd]
        · rw [← h.2]
        · rw [← h.1]

/-! ## Ace re-scoring: what `reduceAces` computes -/

/-- Spec-side notion: number of aces in a hand. -/
def aceCount (hand : List Rank) : ℕ := hand.count Rank.ace

/-- Spec-side notion: the raw sum with every ace scored 11. -/
def rawTotal (hand : List Rank) : ℕ := (hand.map rankValue).sum

/-- Spec-side notion: the totals achievable by re-scoring aces — for
`j` of the aces re-counted as 1, the total drops by `10 * j`. -/
def achievableTotals (hand : List Rank) : Finset ℕ :=
  (Finset.range (aceCount hand + 1)).image (fun j => rawTotal hand - 10 * j)

/-- Each ace contributes 11 to the raw total. -/
theorem rawTotal_ge_11_aceCount (hand : List Rank) :
    11 * aceCount hand ≤ rawTotal hand := by
  induction hand with
  | nil => simp [aceCount, rawTotal]
  | cons c rest ih =>
    unfold aceCount rawTotal at *
    cases c <;> simp [List.count_cons, rankValue] <;> omega

/-- The loop result is one of the achievable totals. -/
theorem reduceAces_mem (t a : ℕ) : ∃ j, j ≤ a ∧ reduceAces t a = t - 10 * j := by
  induction a generalizing t with
  | zero => exact ⟨0, le_refl 0, by simp [reduceAces]⟩
  | succ a ih =>
    by_cases hb : 21 < t
    · rcases ih (t - 10) with ⟨j, hj, hred⟩
      refine ⟨j + 1, by omega, ?_⟩
      rw [reduceAces, if_pos hb, hred]
      omega
    · exact ⟨0, by omega, by rw [reduceAces, if_neg hb] ; omega⟩

/-- When even re-scoring every ace cannot avoid a bust, the loop
re-scores them all. -/
theorem reduceAces_allBust {t a : ℕ} (hb : 21 < t - 10 * a) :
    reduceAces t a = t - 10 * a := by
  induction a generalizing t with
  | zero => simp [reduceAces]
  | succ a ih =>
    have ht : 21 < t := by omega
    rw [reduceAces, if_pos ht, ih (by omega)]
    omega

/-- When some achievable total avoids a bust, the loop returns the
LARGEST achievable total that does: it stops re-scoring as soon as the
total drops to 21 or below. -/
theorem reduceAces_max {t a : ℕ} (hnb : t - 10 * a ≤ 21) :
    reduceAces t a ≤ 21 ∧ ∀ j, j ≤ a → t - 10 * j ≤ 21 → t - 10 * j ≤ reduceAces t a := by
  induction a generalizing t with
  | zero =>
    simp only [reduceAces]
    constructor
    · omega
    · intro j hj _ ; omega
  | succ a ih =>
    by_cases hb : 21 < t
    · have hnb' : (t - 10) - 10 * a ≤ 21 := by omega
      rcases ih hnb' with ⟨h1, h2⟩
      rw [reduceAces, if_pos hb]
      refine ⟨h1, ?_⟩
      intro j hj hjnb
      cases j with
      | zero => omega
      | succ j' =>
        have := h2 j' (by omega) (by omega)
        omega
    · rw [reduceAces, if_neg hb]
      refine ⟨by omega, ?_⟩
      intro j hj _ ; omega

/-! ## The dealer-draw loop: draws exactly while the hand is below 17 -/

/-- Full characterisation of the loop on the reversed deck: the final
hand is worth at least 17, it extends the initial hand by the cards
popped off the deck in order, and every card was drawn at a moment when
the hand was still worth less than 17. -/
theorem dealerDrawRev_spec {rdeck hand rdeck' hand' : List Rank}
    (h : dealerDrawRev rdeck hand = some (rdeck', hand')) :
    17 ≤ hand_value hand' ∧
    ∃ drawn, hand' = hand ++ drawn ∧ rdeck = drawn ++ rdeck' ∧
      ∀ i < drawn.length, hand_value (hand ++ drawn.take i) < 17 := by
  induction rdeck generalizing hand with
  | nil =>
    rw [dealerDrawRev] at h
    by_cases hv : hand_value hand < 17
    · rw [if_pos hv] at h ; exact absurd h (by simp)
    · rw [if_neg hv] at h
      simp only [Option.some.injEq, Prod.mk.injEq] at h
      refine ⟨by rw [← h.2] ; omega, [], by simp [h.2], by simp [h.1], by simp⟩
  | cons c rest ih =>
    rw [dealerDrawRev] at h
    by_cases hv : hand_value hand < 17
    · rw [if_pos hv] at h
      rcases ih h with ⟨h17, drawn', hh, hd, hlt⟩
      refine ⟨h17, c :: drawn', by simp [hh], by simp [hd], ?_⟩
      intro i hi
      cases i with
      | zero => simpa using hv
      | succ i' =>
        have := hlt i' (by simpa using hi)
        simpa [List.append_assoc] using this
    · rw [if_neg hv] at h
      simp only [Option.some.injEq, Prod.mk.injEq] at h
      refine ⟨by rw [← h.2] ; omega, [], by simp [h.2], by simp [h.1], by simp⟩

/-- The same characterisation for `dealerDraw` on the deck in source
order: drawn cards come off the END of the deck (`deck.pop()`), and no
card is drawn once the hand reaches 17. -/
theorem dealerDraw_spec {deck hand deck' hand' : List Rank}
    (h : dealerDraw deck hand = some (deck', hand')) :
    17 ≤ hand_value hand' ∧
    (17 ≤ hand_value hand → deck' = deck ∧ hand' = hand) ∧
    ∃ drawn, hand' = hand ++ drawn ∧ deck = deck' ++ drawn.reverse ∧
      ∀ i < drawn.length, hand_value (hand ++ drawn.take i) < 17 := by
  unfold dealerDraw at h
  cases hr : dealerDrawRev deck.reverse hand with
  | none => rw [hr] at h ; exact absurd h (by simp)
  | some p =>
    rw [hr] at h
    simp only [Option.map_some', Option.some.injEq, Prod.mk.injEq] at h
    rcases dealerDrawRev_spec hr with ⟨h17, drawn, hh, hd, hlt⟩
    obtain ⟨hdeck', hhand'⟩ := h
    refine ⟨by rw [← hhand'] ; exact h17, ?_, drawn, by rw [← hhand'] ; exact hh, ?_, hlt⟩
    · intro hge
      rw [dealerDrawRev.eq_def, if_neg (by omega)] at hr
      simp only [Option.some.injEq] at hr
      constructor
      · rw [← hdeck', ← hr] ; simp
      · rw [← hhand', ← hr]
    · have hrev : deck = (drawn ++ p.1).reverse := by
        rw [← hd] ; simp
      rw [hrev, ← hdeck']
      simp

/-! ## Lookup helpers for the written-back state -/

/-- After `setBalance` the stored player record carries the new
balance. -/
theorem findPlayer_setBalance_self (db : DB) (id : String) (b : ℚ) :
    findPlayer (setBalance db id b) id =
      (findPlayer db id).map (fun p => { p with balance := b }) := by
  unfold findPlayer setBalance
  exact findFirst_updateFirst_self db.players id _

/-- Appending a history record does not touch the player store. -/
theorem findPlayer_appendHistory (db : DB) (e : HistoryRec) (id : String) :
    findPlayer (appendHistory db e) id = findPlayer db id := rfl

/-- Updating a session does not touch the player store. -/
theorem findPlayer_updateSessionSettled (db : DB) (sid : String)
    (deck dealerHand : List Rank) (id : String) :
    findPlayer (updateSessionSettled db sid deck dealerHand) id = findPlayer db id := rfl

/-! ## Claim theorems -/

/-- C3:blackjack settlement applies the outcome rules in the fixed
precedence order — player bust first, then dealer bust, then player
natural (2-card 21, dealer without one) at 1.5×bet, then dealer
natural at −bet, then higher total at ±bet, push at 0 — and a
successful `settle_blackjack` response carries exactly the payout and
result label of `settleOutcome` applied to the post-draw hand values
and hand sizes. -/
theorem settle_outcome_precedence (bet : ℚ) (pVal dVal pLen dLen : ℕ) :
    (21 < pVal → settleOutcome bet pVal dVal pLen dLen = (-bet, "player_bust")) ∧
    (pVal ≤ 21 → 21 < dVal → settleOutcome bet pVal dVal pLen dLen = (bet, "dealer_bust")) ∧
    (pVal ≤ 21 → dVal ≤ 21 → pVal = 21 → pLen = 2 → ¬(dVal = 21 ∧ dLen = 2) →
      settleOutcome bet pVal dVal pLen dLen = (bet * 1.5, "player_blackjack")) ∧
    (pVal ≤ 21 → dVal ≤ 21 → dVal = 21 → dLen = 2 → ¬(pVal = 21 ∧ pLen = 2) →
      settleOutcome bet pVal dVal pLen dLen = (-bet, "dealer_blackjack")) ∧
    (pVal ≤ 21 → dVal ≤ 21 → ¬(pVal = 21 ∧ pLen = 2 ∧ ¬(dVal = 21 ∧ dLen = 2)) →
      ¬(dVal = 21 ∧ dLen = 2 ∧ ¬(pVal = 21 ∧ pLen = 2)) → dVal < pVal →
      settleOutcome bet pVal dVal pLen dLen = (bet, "player_win")) ∧
    (pVal ≤ 21 → dVal ≤ 21 → ¬(pVal = 21 ∧ pLen = 2 ∧ ¬(dVal = 21 ∧ dLen = 2)) →
      ¬(dVal = 21 ∧ dLen = 2 ∧ ¬(pVal = 21 ∧ pLen = 2)) → pVal < dVal →
      settleOutcome bet pVal dVal pLen dLen = (-bet, "dealer_win")) ∧
    (pVal ≤ 21 → dVal ≤ 21 → ¬(pVal = 21 ∧ pLen = 2 ∧ ¬(dVal = 21 ∧ dLen = 2)) →
      ¬(dVal = 21 ∧ dLen = 2 ∧ ¬(pVal = 21 ∧ pLen = 2)) → pVal = dVal →
      settleOutcome bet pVal dVal pLen dLen = (0, "push")) ∧
    (∀ db sid db' resp, settle_blackjack db sid = (db', Except.ok resp) →
      ∃ session, findSession db sid = some session ∧
        resp.payout = round2 (settleOutcome session.bet (hand_value session.playerHand)
          (hand_value resp.dealerHand) session.playerHand.length resp.dealerHand.length).1 ∧
        resp.result = (settleOutcome session.bet (hand_value session.playerHand)
          (hand_value resp.dealerHand) session.playerHand.length resp.dealerHand.length).2) := by
  refine ⟨?_, ?_, ?_, ?_, ?_, ?_, ?_, ?_⟩
  · intro h1
    simp only [settleOutcome]
    split_ifs <;> first | rfl | omega
  · intro h1 h2
    simp only [settleOutcome]
    split_ifs <;> first | rfl | omega
  · intro h1 h2 h3 h4 h5
    simp only [settleOutcome]
    split_ifs <;> first | rfl | omega | tauto
  · intro h1 h2 h3 h4 h5
    simp only [settleOutcome]
    split_ifs <;> first | rfl | omega | tauto
  · intro h1 h2 h3 h4 h5
    simp only [settleOutcome]
    split_ifs <;> first | rfl | omega | tauto
  · intro h1 h2 h3 h4 h5
    simp only [settleOutcome]
    split_ifs <;> first | rfl | omega | tauto
  · intro h1 h2 h3 h4 h5
    simp only [settleOutcome]
    split_ifs <;> first | rfl | omega | tauto
  · intro db sid db' resp h
    rcases settle_blackjack_ok h with ⟨session, player, deck', dealerHand', hs, hp, hd, hresp, hdb⟩
    exact ⟨session, hs, by rw [hresp], by rw [hresp]⟩

/-- C3 witness: the cascade evaluated at concrete inputs — a busted
player loses the bet even when the dealer also busts, and a concrete
settlement response carries the result of `settleOutcome`. -/
theorem settle_outcome_precedence_witness :
    settleOutcome 100 22 23 3 4 = (-100, "player_bust") ∧
    settleOutcome 100 20 22 2 3 = (100, "dealer_bust") ∧
    settleOutcome 100 21 20 2 2 = (150, "player_blackjack") ∧
    settleOutcome 100 19 21 3 2 = (-100, "dealer_blackjack") ∧
    settleOutcome 100 20 19 3 2 = (100, "player_win") ∧
    settleOutcome 100 18 19 3 3 = (-100, "dealer_win") ∧
    settleOutcome 100 19 19 3 3 = (0, "push") := by
  refine ⟨?_, ?_, ?_, ?_, ?_, ?_, ?_⟩
  · exact (settle_outcome_precedence 100 22 23 3 4).1 (by norm_num)
  · exact (settle_outcome_precedence 100 20 22 2 3).2.1 (by norm_num) (by norm_num)
  · have h := (settle_outcome_precedence 100 21 20 2 2).2.2.1 (by norm_num) (by norm_num)
      rfl rfl (by norm_num)
    rw [h] ; norm_num
  · exact (settle_outcome_precedence 100 19 21 3 2).2.2.2.1 (by norm_num) (by norm_num)
      rfl rfl (by norm_num)
  · exact (settle_outcome_precedence 100 20 19 3 2).2.2.2.2.1 (by norm_num) (by norm_num)
      (by norm_num) (by norm_num) (by norm_num)
  · exact (settle_outcome_precedence 100 18 19 3 3).2.2.2.2.2.1 (by norm_num) (by norm_num)
      (by norm_num) (by norm_num) (by norm_num)
  · exact (settle_outcome_precedence 100 19 19 3 3).2.2.2.2.2.2.1 (by norm_num) (by norm_num)
      (by norm_num) (by norm_num) rfl

/-- C7 counterexample: for the hand A+5 the achievable totals are 16
and 6; the minimal non-bust achievable total is 6, but `hand_value`
returns 16 — the returned value is NOT the minimal non-bust total. -/
theorem hand_value_not_minimal_nonbust :
    hand_value [Rank.ace, Rank.five] = 16 ∧
    6 ∈ achievableTotals [Rank.ace, Rank.five] ∧ 6 ≤ 21 ∧
    (∀ t ∈ achievableTotals [Rank.ace, Rank.five], t ≤ 21 → 6 ≤ t) ∧
    hand_value [Rank.ace, Rank.five] ≠ 6 := by decide

/-- C7 as amended: `hand_value` sums ranks with face cards as 10 and
aces as 11, then re-counts aces as 1 while the total busts (that is its
definition); the returned value is always one of the achievable
re-scorings, it is the MAXIMAL non-bust achievable total whenever a
non-bust re-scoring exists, and when every re-scoring busts it returns
the minimal total (every ace re-counted as 1).  As a Lean function it
is pure by construction. -/
theorem hand_value_max_nonbust (hand : List Rank) :
    hand_value hand ∈ achievableTotals hand ∧
    (∀ t ∈ achievableTotals hand, t ≤ 21 →
      t ≤ hand_value hand ∧ hand_value hand ≤ 21) ∧
    ((∀ t ∈ achievableTotals hand, 21 < t) →
      hand_value hand = rawTotal hand - 10 * aceCount hand) := by
  have hdef : hand_value hand = reduceAces (rawTotal hand) (aceCount hand) := rfl
  refine ⟨?_, ?_, ?_⟩
  · rcases reduceAces_mem (rawTotal hand) (aceCount hand) with ⟨j, hj, hred⟩
    rw [hdef, hred]
    simp only [achievableTotals, Finset.mem_image, Finset.mem_range]
    exact ⟨j, by omega, rfl⟩
  · intro t ht htle
    simp only [achievableTotals, Finset.mem_image, Finset.mem_range] at ht
    rcases ht with ⟨j, hj, hjt⟩
    have hnb : rawTotal hand - 10 * aceCount hand ≤ 21 := by omega
    rcases reduceAces_max hnb with ⟨h21, hmax⟩
    rw [hdef]
    exact ⟨by rw [← hjt] ; exact hmax j (by omega) (by omega), h21⟩
  · intro hall
    have hmem : rawTotal hand - 10 * aceCount hand ∈ achievableTotals hand := by
      simp only [achievableTotals, Finset.mem_image, Finset.mem_range]
      exact ⟨aceCount hand, by omega, rfl⟩
    rw [hdef]
    exact reduceAces_allBust (hall _ hmem)

/-- C7 amended witness: the example from the spec itself, A+A+9 — achievable
totals 31, 21, 11; the maximal non-bust is 21 and `hand_value` returns
it. -/
theorem hand_value_max_nonbust_witness :
    hand_value [Rank.ace, Rank.ace, Rank.nine] = 21 ∧
    hand_value [Rank.ace, Rank.ace, Rank.nine] ≤ 21 ∧
    21 ∈ achievableTotals [Rank.ace, Rank.ace, Rank.nine] := by
  have h := (hand_value_max_nonbust [Rank.ace, Rank.ace, Rank.nine]).2.1 21
    (by decide) (by decide)
  exact ⟨by omega, h.2, by decide⟩

/-- C8: during settlement the dealer draws from the end of the session
deck exactly until the hand value reaches 17 — every drawn card was
drawn while the hand was worth less than 17, nothing is drawn once the
hand reaches 17, and the final dealer hand of a successful settlement is the
result of that loop, worth at least 17. -/
theorem dealer_stops_at_17 :
    (∀ deck hand deck' hand' : List Rank, dealerDraw deck hand = some (deck', hand') →
      17 ≤ hand_value hand' ∧
      (17 ≤ hand_value hand → deck' = deck ∧ hand' = hand) ∧
      ∃ drawn, hand' = hand ++ drawn ∧ deck = deck' ++ drawn.reverse ∧
        ∀ i < drawn.length, hand_value (hand ++ drawn.take i) < 17) ∧
    (∀ db sid db' resp, settle_blackjack db sid = (db', Except.ok resp) →
      ∃ session deck', findSession db sid = some session ∧
        dealerDraw session.deck session.dealerHand = some (deck', resp.dealerHand) ∧
        17 ≤ hand_value resp.dealerHand) := by
  constructor
  · intro deck hand deck' hand' h
    exact dealerDraw_spec h
  · intro db sid db' resp h
    rcases settle_blackjack_ok h with ⟨session, player, deck', dealerHand', hs, hp, hd, hresp, hdb⟩
    have hdh : resp.dealerHand = dealerHand' := by rw [hresp]
    refine ⟨session, deck', hs, by rw [hdh] ; exact hd, ?_⟩
    rw [hdh]
    exact (dealerDraw_spec hd).1

/-- C8 witness: a dealer hand worth 16 draws exactly one card from the
end of a concrete deck and stops at 21. -/
theorem dealer_stops_at_17_witness :
    17 ≤ hand_value [Rank.king, Rank.six, Rank.five] ∧
    dealerDraw [Rank.two, Rank.five] [Rank.king, Rank.six] =
      some ([Rank.two], [Rank.king, Rank.six, Rank.five]) := by
  have h := (dealer_stops_at_17.1 [Rank.two, Rank.five] [Rank.king, Rank.six]
    [Rank.two] [Rank.king, Rank.six, Rank.five] (by decide)).1
  exact ⟨h, by decide⟩

/-- C5: the slots multiplier is 20 for three sevens, 10 for any other
three of a kind, 2 for exactly two of a kind, 0 for three distinct
reels; and on a successful bet the net payout in the response and the
written-back balance apply `amount * multiplier - amount`. -/
theorem slots_multiplier_payout :
    (∀ r0 r1 r2 : SlotSymbol,
      (r0 = r1 ∧ r1 = r2 →
        slotsMultiplier [r0, r1, r2] = if r0 = SlotSymbol.seven then 20 else 10) ∧
      (¬(r0 = r1 ∧ r1 = r2) ∧ (r0 = r1 ∨ r0 = r2 ∨ r1 = r2) →
        slotsMultiplier [r0, r1, r2] = 2) ∧
      (r0 ≠ r1 ∧ r0 ≠ r2 ∧ r1 ≠ r2 → slotsMultiplier [r0, r1, r2] = 0)) ∧
    (∀ db bet r0 r1 r2 db' resp,
      slotsRequest db bet r0 r1 r2 = (db', Except.ok resp) →
      ∃ player, findPlayer db bet.playerId = some player ∧
        resp.reels = [r0, r1, r2] ∧
        resp.payout = round2 (bet.amount * slotsMultiplier [r0, r1, r2] - bet.amount) ∧
        (findPlayer db' bet.playerId).map (fun p => p.balance) =
          some (round2 (player.balance +
            (bet.amount * slotsMultiplier [r0, r1, r2] - bet.amount)))) := by
  constructor
  · decide
  · intro db bet r0 r1 r2 db' resp h
    rcases slotsRequest_ok h with ⟨player, hamt, hp, hbal, hreels, hpay, hrbal, hdb⟩
    refine ⟨player, hp, hreels, hpay, ?_⟩
    rw [hdb, findPlayer_appendHistory, findPlayer_setBalance_self, hp]
    rfl

/-- C5 witness: the scenario from the spec — all three reels are sevens, the
multiplier is 20, and a 10-chip bet nets 190 = 19 × amount on a
1000-chip balance. -/
theorem slots_multiplier_payout_witness :
    slotsMultiplier [SlotSymbol.seven, SlotSymbol.seven, SlotSymbol.seven] = 20 ∧
    (slotsRequest
        { players := [("p1", { nickname := "n", balance := 1000, vipLevel := 0 })],
          sessions := [], history := [] }
        { playerId := "p1", amount := 10 }
        SlotSymbol.seven SlotSymbol.seven SlotSymbol.seven).2.toOption.map
      (fun r => r.payout) = some 190 := by
  constructor
  · exact ((slots_multiplier_payout.1 SlotSymbol.seven SlotSymbol.seven
      SlotSymbol.seven).1 ⟨rfl, rfl⟩).trans (by norm_num)
  · have h190 := round2_intCast 190
    norm_num at h190
    simp +decide [slotsRequest, validSlots, bet_slots, findPlayer, findFirst,
      slotsMultiplier, Except.toOption]
    norm_num [h190]

/-- C6: the roulette draw is one of 0..36; the colour is a pure
function of the draw — 0 green, the canonical red set red, every other
non-zero number black; and a successful bet pays +amount on a colour
match and −amount otherwise, +35×amount on a number match and −amount
otherwise, both in the response payout and the written-back balance. -/
theorem roulette_color_payout :
    (∀ result : Fin 37, (result : ℕ) ≤ 36) ∧
    rouletteColor 0 = "green" ∧
    (∀ n : Fin 37, (n : ℕ) ∈ redNumbers → rouletteColor n = "red") ∧
    (∀ n : Fin 37, (n : ℕ) ≠ 0 → (n : ℕ) ∉ redNumbers → rouletteColor n = "black") ∧
    (∀ db bet result db' resp,
      rouletteRequest db bet result = (db', Except.ok resp) →
      ∃ player payout, findPlayer db bet.playerId = some player ∧
        ((bet.betType = "red" ∨ bet.betType = "black") →
          payout = if rouletteColor result = bet.betType then bet.amount else -bet.amount) ∧
        (bet.betType = "number" → ∀ v, bet.value = some v →
          payout = if (result : ℕ) = v then bet.amount * 35 else -bet.amount) ∧
        resp.color = rouletteColor result ∧
        resp.payout = round2 payout ∧
        (findPlayer db' bet.playerId).map (fun p => p.balance) =
          some (round2 (player.balance + payout))) := by
  refine ⟨fun r => by omega, rfl, ?_, ?_, ?_⟩
  · intro n hn
    unfold rouletteColor
    rw [if_neg (by rintro h ; rw [h] at hn ; revert hn ; decide), if_pos hn]
  · intro n h0 hnr
    unfold rouletteColor
    rw [if_neg h0, if_neg hnr]
  · intro db bet result db' resp h
    rcases rouletteRequest_ok h with ⟨player, payout, hamt, hp, hbal, hcase, hfin⟩
    have hfin1 := congrArg Prod.fst hfin
    have hfin2 := congrArg Prod.snd hfin
    simp only [rouletteFinish] at hfin1 hfin2
    simp only [Except.ok.injEq] at hfin2
    refine ⟨player, payout, hp, ?_, ?_, ?_, ?_, ?_⟩
    · intro hrb
      rcases hcase with ⟨_, hpay⟩ | ⟨hnum, _⟩
      · exact hpay
      · rcases hrb with hr | hb
        · rw [hr] at hnum ; exact absurd hnum (by decide)
        · rw [hb] at hnum ; exact absurd hnum (by decide)
    · intro hnum v hv
      rcases hcase with ⟨hrb, _⟩ | ⟨_, v', hv', hpay⟩
      · rcases hrb with hr | hb
        · rw [hnum] at hr ; exact absurd hr (by decide)
        · rw [hnum] at hb ; exact absurd hb (by decide)
      · rw [hv] at hv'
        cases hv'
        exact hpay
    · rw [← hfin2]
    · rw [← hfin2]
    · rw [← hfin1, findPlayer_appendHistory, findPlayer_setBalance_self, hp]
      rfl

/-- C6 witness: the scenario from the spec — balance 1000, 100 on red, the
wheel lands on 1 (red): payout +100, balance 1100. -/
theorem roulette_color_payout_witness :
    rouletteColor ⟨1, by norm_num⟩ = "red" ∧
    ((rouletteRequest
        { players := [("p1", { nickname := "n", balance := 1000, vipLevel := 0 })],
          sessions := [], history := [] }
        { playerId := "p1", amount := 100, betType := "red", value := none }
        ⟨1, by norm_num⟩).2.toOption.map (fun r => (r.color, r.payout, r.balance))) =
      some ("red", 100, 1100) := by
  constructor
  · exact roulette_color_payout.2.2.1 ⟨1, by norm_num⟩ (by decide)
  · have h100 := round2_intCast 100
    have h1100 := round2_intCast 1100
    norm_num at h100 h1100
    simp +decide [rouletteRequest, validRoulette, bet_roulette, findPlayer, findFirst,
      rouletteFinish, rouletteColor, redNumbers, h100, Except.toOption]
    norm_num [h1100]

/-- C4: every losing validation — non-positive amount (pydantic),
unknown player id, insufficient balance, missing number on a roulette
number-bet, invalid roulette bet type — rejects the request with a
client-visible error and returns the store untouched: no balance
change, no history record, no session, for roulette, slots and
blackjack start alike. -/
theorem invalid_bets_rejected (db : DB) :
    (∀ (bet : RouletteBet) result, bet.amount ≤ 0 →
      rouletteRequest db bet result =
        (db, Except.error (ApiError.badRequest "request validation failed"))) ∧
    (∀ (bet : RouletteBet) result, validRoulette bet = true →
      findPlayer db bet.playerId = none →
      rouletteRequest db bet result =
        (db, Except.error (ApiError.notFound "Player not found"))) ∧
    (∀ (bet : RouletteBet) result player, validRoulette bet = true →
      findPlayer db bet.playerId = some player → player.balance < bet.amount →
      rouletteRequest db bet result =
        (db, Except.error (ApiError.badRequest "Insufficient balance"))) ∧
    (∀ (bet : RouletteBet) result player, validRoulette bet = true →
      findPlayer db bet.playerId = some player → ¬player.balance < bet.amount →
      bet.betType = "number" → bet.value = none →
      rouletteRequest db bet result =
        (db, Except.error (ApiError.badRequest "Value is required for number bet"))) ∧
    (∀ (bet : RouletteBet) result player, validRoulette bet = true →
      findPlayer db bet.playerId = some player → ¬player.balance < bet.amount →
      bet.betType ≠ "red" → bet.betType ≠ "black" → bet.betType ≠ "number" →
      rouletteRequest db bet result =
        (db, Except.error (ApiError.badRequest "Invalid bet type"))) ∧
    (∀ (bet : SlotsBet) r0 r1 r2, bet.amount ≤ 0 →
      slotsRequest db bet r0 r1 r2 =
        (db, Except.error (ApiError.badRequest "request validation failed"))) ∧
    (∀ (bet : SlotsBet) r0 r1 r2, 0 < bet.amount →
      findPlayer db bet.playerId = none →
      slotsRequest db bet r0 r1 r2 =
        (db, Except.error (ApiError.notFound "Player not found"))) ∧
    (∀ (bet : SlotsBet) r0 r1 r2 player, 0 < bet.amount →
      findPlayer db bet.playerId = some player → player.balance < bet.amount →
      slotsRequest db bet r0 r1 r2 =
        (db, Except.error (ApiError.badRequest "Insufficient balance"))) ∧
    (∀ (data : BlackjackStart) deck0 sid, data.amount ≤ 0 →
      startRequest db data deck0 sid =
        (db, Except.error (ApiError.badRequest "request validation failed"))) ∧
    (∀ (data : BlackjackStart) deck0 sid, 0 < data.amount →
      findPlayer db data.playerId = none →
      startRequest db data deck0 sid =
        (db, Except.error (ApiError.notFound "Player not found"))) ∧
    (∀ (data : BlackjackStart) deck0 sid player, 0 < data.amount →
      findPlayer db data.playerId = some player → player.balance < data.amount →
      startRequest db data deck0 sid =
        (db, Except.error (ApiError.badRequest "Insufficient balance"))) := by
  refine ⟨?_, ?_, ?_, ?_, ?_, ?_, ?_, ?_, ?_, ?_, ?_⟩
  · intro bet result hamt
    have hv : validRoulette bet = false := by
      unfold validRoulette
      simp [not_lt.mpr hamt]
    unfold rouletteRequest
    rw [hv]
    rfl
  · intro bet result hv hp
    unfold rouletteRequest
    rw [hv, if_pos rfl]
    unfold bet_roulette
    rw [hp]
  · intro bet result player hv hp hbal
    unfold rouletteRequest
    rw [hv, if_pos rfl]
    unfold bet_roulette
    rw [hp]
    simp only
    rw [if_pos hbal]
  · intro bet result player hv hp hbal hnum hval
    unfold rouletteRequest
    rw [hv, if_pos rfl]
    unfold bet_roulette
    rw [hp]
    simp only
    rw [if_neg hbal, if_neg (by rw [hnum] ; rintro (h | h) <;> exact absurd h (by decide)),
      if_pos hnum, hval]
  · intro bet result player hv hp hbal hr hb hn
    unfold rouletteRequest
    rw [hv, if_pos rfl]
    unfold bet_roulette
    rw [hp]
    simp only
    rw [if_neg hbal, if_neg (by rintro (h | h) <;> [exact hr h ; exact hb h]), if_neg hn]
  · intro bet r0 r1 r2 hamt
    have hv : validSlots bet = false := by
      unfold validSlots
      simp [not_lt.mpr hamt]
    unfold slotsRequest
    rw [hv]
    rfl
  · intro bet r0 r1 r2 hamt hp
    unfold slotsRequest validSlots
    rw [if_pos (by simpa using hamt)]
    unfold bet_slots
    rw [hp]
  · intro bet r0 r1 r2 player hamt hp hbal
    unfold slotsRequest validSlots
    rw [if_pos (by simpa using hamt)]
    unfold bet_slots
    rw [hp]
    simp only
    rw [if_pos hbal]
  · intro data deck0 sid hamt
    have hv : validStart data = false := by
      unfold validStart
      simp [not_lt.mpr hamt]
    unfold startRequest
    rw [hv]
    rfl
  · intro data deck0 sid hamt hp
    unfold startRequest validStart
    rw [if_pos (by simpa using hamt)]
    unfold blackjack_start
    rw [hp]
  · intro data deck0 sid player hamt hp hbal
    unfold startRequest validStart
    rw [if_pos (by simpa using hamt)]
    unfold blackjack_start
    rw [hp]
    simp only
    rw [if_pos hbal]

/-- C4 witness: the scenario from the spec — balance 50, bet 100 — is
rejected on roulette and slots with the store untouched, and an
unknown player id is rejected with a not-found error. -/
theorem invalid_bets_rejected_witness :
    rouletteRequest
        { players := [("p1", { nickname := "n", balance := 50, vipLevel := 0 })],
          sessions := [], history := [] }
        { playerId := "p1", amount := 100, betType := "red", value := none } 0 =
      ({ players := [("p1", { nickname := "n", balance := 50, vipLevel := 0 })],
         sessions := [], history := [] },
        Except.error (ApiError.badRequest "Insufficient balance")) ∧
    slotsRequest
        { players := [("p1", { nickname := "n", balance := 50, vipLevel := 0 })],
          sessions := [], history := [] }
        { playerId := "p1", amount := 100 }
        SlotSymbol.cherry SlotSymbol.lemon SlotSymbol.bell =
      ({ players := [("p1", { nickname := "n", balance := 50, vipLevel := 0 })],
         sessions := [], history := [] },
        Except.error (ApiError.badRequest "Insufficient balance")) ∧
    rouletteRequest
        { players := [("p1", { nickname := "n", balance := 50, vipLevel := 0 })],
          sessions := [], history := [] }
        { playerId := "p2", amount := 100, betType := "red", value := none } 0 =
      ({ players := [("p1", { nickname := "n", balance := 50, vipLevel := 0 })],
         sessions := [], history := [] },
        Except.error (ApiError.notFound "Player not found")) := by
  refine ⟨?_, ?_, ?_⟩
  · exact (invalid_bets_rejected _).2.2.1 _ 0
      { nickname := "n", balance := 50, vipLevel := 0 }
      (by norm_num [validRoulette]) rfl (by norm_num)
  · exact (invalid_bets_rejected _).2.2.2.2.2.2.2.1 _ SlotSymbol.cherry SlotSymbol.lemon
      SlotSymbol.bell { nickname := "n", balance := 50, vipLevel := 0 }
      (by norm_num) rfl (by norm_num)
  · exact (invalid_bets_rejected _).2.1 _ 0 (by norm_num [validRoulette]) (by decide)

/-- For a positive bet the sign of the settlement payout follows the result
label: positive on the winning labels, negative on the losing ones,
zero on a push. -/
theorem settleOutcome_sign (bet : ℚ) (p d pl dl : ℕ) (hb : 0 < bet) :
    (((settleOutcome bet p d pl dl).2 = "dealer_bust" ∨
      (settleOutcome bet p d pl dl).2 = "player_blackjack" ∨
      (settleOutcome bet p d pl dl).2 = "player_win") →
      0 < (settleOutcome bet p d pl dl).1) ∧
    (((settleOutcome bet p d pl dl).2 = "player_bust" ∨
      (settleOutcome bet p d pl dl).2 = "dealer_blackjack" ∨
      (settleOutcome bet p d pl dl).2 = "dealer_win") →
      (settleOutcome bet p d pl dl).1 < 0) ∧
    ((settleOutcome bet p d pl dl).2 = "push" → (settleOutcome bet p d pl dl).1 = 0) := by
  unfold settleOutcome
  split_ifs <;>
    refine ⟨fun h => ?_, fun h => ?_, fun h => ?_⟩ <;>
    simp at h ⊢ <;>
    linarith

/-- For a non-negative bet the settlement payout never loses more than
the bet. -/
theorem settleOutcome_ge_neg_bet (bet : ℚ) (p d pl dl : ℕ) (hb : 0 ≤ bet) :
    -bet ≤ (settleOutcome bet p d pl dl).1 := by
  unfold settleOutcome
  split_ifs <;> simp <;> linarith

/-- The slots multiplier only ever takes the values 0, 2, 10, 20. -/
theorem slotsMultiplier_cases (r0 r1 r2 : SlotSymbol) :
    slotsMultiplier [r0, r1, r2] = 0 ∨ slotsMultiplier [r0, r1, r2] = 2 ∨
    slotsMultiplier [r0, r1, r2] = 10 ∨ slotsMultiplier [r0, r1, r2] = 20 := by
  revert r0 r1 r2 ; decide

/-- C9: for every successfully resolved bet the balance written back
and returned is `round2 (balance_before + payout)`, the payout in the
response and the appended history record is `round2 payout`, and the
sign of the payout matches the outcome — positive on a win, negative on a
loss, zero on a push. -/
theorem settlement_rounding_and_sign :
    (∀ db bet result db' resp,
      rouletteRequest db bet result = (db', Except.ok resp) →
      ∃ player payout, findPlayer db bet.playerId = some player ∧
        resp.payout = round2 payout ∧
        resp.balance = round2 (player.balance + payout) ∧
        (findPlayer db' bet.playerId).map (fun p => p.balance) =
          some (round2 (player.balance + payout)) ∧
        (∃ entry, db'.history = entry :: db.history ∧ entry.payout = round2 payout) ∧
        ((bet.betType = "red" ∨ bet.betType = "black") →
          (rouletteColor result = bet.betType → 0 < payout) ∧
          (rouletteColor result ≠ bet.betType → payout < 0)) ∧
        (bet.betType = "number" → ∀ v, bet.value = some v →
          ((result : ℕ) = v → 0 < payout) ∧ ((result : ℕ) ≠ v → payout < 0))) ∧
    (∀ db bet r0 r1 r2 db' resp,
      slotsRequest db bet r0 r1 r2 = (db', Except.ok resp) →
      ∃ player payout, findPlayer db bet.playerId = some player ∧
        resp.payout = round2 payout ∧
        resp.balance = round2 (player.balance + payout) ∧
        (findPlayer db' bet.playerId).map (fun p => p.balance) =
          some (round2 (player.balance + payout)) ∧
        (∃ entry, db'.history = entry :: db.history ∧ entry.payout = round2 payout) ∧
        (slotsMultiplier [r0, r1, r2] = 0 → payout < 0) ∧
        (slotsMultiplier [r0, r1, r2] ≠ 0 → 0 < payout)) ∧
    (∀ db sid db' resp session,
      settle_blackjack db sid = (db', Except.ok resp) →
      findSession db sid = some session → 0 < session.bet →
      ∃ player payout, findPlayer db session.playerId = some player ∧
        resp.payout = round2 payout ∧
        resp.balance = round2 (player.balance + payout) ∧
        (findPlayer db' session.playerId).map (fun p => p.balance) =
          some (round2 (player.balance + payout)) ∧
        (∃ entry, db'.history = entry :: db.history ∧ entry.payout = round2 payout ∧
          entry.result = resp.result) ∧
        ((resp.result = "dealer_bust" ∨ resp.result = "player_blackjack" ∨
          resp.result = "player_win") → 0 < payout) ∧
        ((resp.result = "player_bust" ∨ resp.result = "dealer_blackjack" ∨
          resp.result = "dealer_win") → payout < 0) ∧
        (resp.result = "push" → payout = 0)) := by
  refine ⟨?_, ?_, ?_⟩
  · intro db bet result db' resp h
    rcases rouletteRequest_ok h with ⟨player, payout, hamt, hp, hbal, hcase, hfin⟩
    have hfin1 := congrArg Prod.fst hfin
    have hfin2 := congrArg Prod.snd hfin
    simp only [rouletteFinish] at hfin1 hfin2
    simp only [Except.ok.injEq] at hfin2
    refine ⟨player, payout, hp, by rw [← hfin2], by rw [← hfin2], ?_, ?_, ?_, ?_⟩
    · rw [← hfin1, findPlayer_appendHistory, findPlayer_setBalance_self, hp]
      rfl
    · refine ⟨⟨bet.playerId, "roulette", bet.amount,
        toString result.val ++ " (" ++ rouletteColor result ++ ")",
        round2 payout⟩, ?_, rfl⟩
      rw [← hfin1]
      rfl
    · intro hrb
      rcases hcase with ⟨_, hpay⟩ | ⟨hnum, _⟩
      · constructor
        · intro hmatch
          rw [hpay, if_pos hmatch]
          exact hamt
        · intro hmiss
          rw [hpay, if_neg hmiss]
          linarith
      · rcases hrb with hr | hb
        · rw [hr] at hnum ; exact absurd hnum (by decide)
        · rw [hb] at hnum ; exact absurd hnum (by decide)
    · intro hnum v hv
      rcases hcase with ⟨hrb, _⟩ | ⟨_, v', hv', hpay⟩
      · rcases hrb with hr | hb
        · rw [hnum] at hr ; exact absurd hr (by decide)
        · rw [hnum] at hb ; exact absurd hb (by decide)
      · rw [hv] at hv'
        cases hv'
        constructor
        · intro hmatch
          rw [hpay, if_pos hmatch]
          linarith
        · intro hmiss
          rw [hpay, if_neg hmiss]
          linarith
  · intro db bet r0 r1 r2 db' resp h
    rcases slotsRequest_ok h with ⟨player, hamt, hp, hbal, hreels, hpay, hrbal, hdb⟩
    refine ⟨player, bet.amount * slotsMultiplier [r0, r1, r2] - bet.amount,
      hp, hpay, hrbal, ?_, ?_, ?_, ?_⟩
    · rw [hdb, findPlayer_appendHistory, findPlayer_setBalance_self, hp]
      rfl
    · refine ⟨⟨bet.playerId, "slots", bet.amount, String.join ([r0, r1, r2].map symbolStr),
        round2 (bet.amount * (slotsMultiplier [r0, r1, r2] : ℚ) - bet.amount)⟩, ?_, rfl⟩
      rw [hdb]
      rfl
    · intro h0
      rw [h0]
      push_cast
      linarith
    · intro hne
      rcases slotsMultiplier_cases r0 r1 r2 with h' | h' | h' | h'
      · exact absurd h' hne
      · rw [h'] ; push_cast ; linarith
      · rw [h'] ; push_cast ; linarith
      · rw [h'] ; push_cast ; linarith
  · intro db sid db' resp session h hs hb
    rcases settle_blackjack_ok h with ⟨session', player, deck', dealerHand', hs', hp, hd, hresp, hdb⟩
    rw [hs] at hs'
    cases hs'
    refine ⟨player, (settleOutcome session.bet (hand_value session.playerHand)
      (hand_value dealerHand') session.playerHand.length dealerHand'.length).1,
      hp, ?_, ?_, ?_, ?_, ?_, ?_, ?_⟩
    · rw [hresp]
    · rw [hresp]
    · rw [hdb, findPlayer_appendHistory, findPlayer_updateSessionSettled,
        findPlayer_setBalance_self, hp]
      rfl
    · refine ⟨⟨session.playerId, "blackjack", session.bet,
        (settleOutcome session.bet (hand_value session.playerHand)
          (hand_value dealerHand') session.playerHand.length dealerHand'.length).2,
        round2 (settleOutcome session.bet (hand_value session.playerHand)
          (hand_value dealerHand') session.playerHand.length dealerHand'.length).1⟩,
        ?_, rfl, ?_⟩
      · rw [hdb]
        rfl
      · rw [hresp]
    · intro hwin
      rw [hresp] at hwin
      exact (settleOutcome_sign session.bet (hand_value session.playerHand)
        (hand_value dealerHand') session.playerHand.length dealerHand'.length hb).1 hwin
    · intro hlose
      rw [hresp] at hlose
      exact (settleOutcome_sign session.bet (hand_value session.playerHand)
        (hand_value dealerHand') session.playerHand.length dealerHand'.length hb).2.1 hlose
    · intro hpush
      rw [hresp] at hpush
      exact (settleOutcome_sign session.bet (hand_value session.playerHand)
        (hand_value dealerHand') session.playerHand.length dealerHand'.length hb).2.2 hpush

/-- Concrete draw used by witnesses: the wheel lands on 1, a red
number. -/
def rw1 : Fin 37 := ⟨1, by norm_num⟩

/-- Concrete store used by the C9 witness. -/
def cDb9 : DB :=
  { players := [("p1", ⟨"n", 1000, 0⟩)], sessions := [], history := [] }

/-- Concrete bet used by the C9 witness: 100 on red. -/
def cBet9 : RouletteBet := ⟨"p1", 100, "red", none⟩

/-- Concrete response of the C9 witness bet. -/
def cResp9 : RouletteResp := ⟨rw1, "red", 100, 1100⟩

/-- C9 witness: the rounding-and-sign contract instantiated on a
concrete winning red bet — payout 100, balance 1000 → 1100. -/
theorem settlement_rounding_and_sign_witness :
    ∃ player payout,
      findPlayer cDb9 cBet9.playerId = some player ∧
      cResp9.payout = round2 payout ∧
      cResp9.balance = round2 (player.balance + payout) ∧
      (findPlayer (rouletteRequest cDb9 cBet9 rw1).1 cBet9.playerId).map
        (fun p => p.balance) = some (round2 (player.balance + payout)) ∧
      (∃ entry, (rouletteRequest cDb9 cBet9 rw1).1.history = entry :: cDb9.history ∧
        entry.payout = round2 payout) ∧
      ((cBet9.betType = "red" ∨ cBet9.betType = "black") →
        (rouletteColor rw1 = cBet9.betType → 0 < payout) ∧
        (rouletteColor rw1 ≠ cBet9.betType → payout < 0)) ∧
      (cBet9.betType = "number" → ∀ v, cBet9.value = some v →
        ((rw1 : ℕ) = v → 0 < payout) ∧ ((rw1 : ℕ) ≠ v → payout < 0)) := by
  have h100 := round2_intCast 100
  have h1100 := round2_intCast 1100
  norm_num at h100 h1100
  have h2 : (rouletteRequest cDb9 cBet9 rw1).2 = Except.ok cResp9 := by
    simp +decide [rouletteRequest, validRoulette, bet_roulette, findPlayer, findFirst,
      rouletteFinish, rouletteColor, redNumbers, cDb9, cBet9, cResp9, rw1, h100]
    norm_num [h1100]
  exact settlement_rounding_and_sign.1 cDb9 cBet9 rw1 _ cResp9 (by rw [← h2])

/-- C10: `settle_blackjack` guards the missing session with a
client-visible not-found error, but not the missing player: when the
stored player id does not resolve, the handler reaches the payout
application, subscripts the absent record, and dies with an uncaught
TypeError — no client-visible not-found response, no state written. -/
theorem settle_missing_player_crashes :
    (∀ db sid, findSession db sid = none →
      settle_blackjack db sid =
        (db, Except.error (ApiError.notFound "Session not found")) ∧
      (ApiError.notFound "Session not found").isClientError = true) ∧
    (∀ db sid session deck' dealerHand',
      findSession db sid = some session →
      findPlayer db session.playerId = none →
      dealerDraw session.deck session.dealerHand = some (deck', dealerHand') →
      settle_blackjack db sid =
        (db, Except.error (ApiError.crash "TypeError: NoneType is not subscriptable")) ∧
      (ApiError.crash "TypeError: NoneType is not subscriptable").isClientError = false) := by
  constructor
  · intro db sid hs
    constructor
    · unfold settle_blackjack
      rw [hs]
    · rfl
  · intro db sid session deck' dealerHand' hs hp hd
    constructor
    · unfold settle_blackjack
      rw [hs]
      simp only
      rw [hd, hp]
    · rfl

/-- Concrete store for the C10 witness: a session whose player id
resolves to nothing. -/
def cDb10 : DB :=
  { players := [],
    sessions := [("s1", ⟨"ghost", 100, [Rank.two], [Rank.five, Rank.six],
      [Rank.king, Rank.queen], BJStatus.playing⟩)],
    history := [] }

/-- C10 witness: settling that session crashes with the TypeError, not
a 404, and leaves the store untouched. -/
theorem settle_missing_player_crashes_witness :
    settle_blackjack cDb10 "s1" =
      (cDb10, Except.error (ApiError.crash "TypeError: NoneType is not subscriptable")) ∧
    (ApiError.crash "TypeError: NoneType is not subscriptable").isClientError = false := by
  exact settle_missing_player_crashes.2 cDb10 "s1"
    ⟨"ghost", 100, [Rank.two], [Rank.five, Rank.six], [Rank.king, Rank.queen], BJStatus.playing⟩
    [Rank.two] [Rank.king, Rank.queen] rfl rfl (by decide)

/-! ## Balance non-negativity -/

/-- Every stored player balance is non-negative (the §3 invariant). -/
def dbBalancesNonneg (db : DB) : Prop :=
  ∀ p ∈ db.players, 0 ≤ p.2.balance

/-- Writing a non-negative balance preserves the invariant. -/
theorem dbBalancesNonneg_setBalance {db : DB} {b : ℚ} (hdb : dbBalancesNonneg db)
    (hb : 0 ≤ b) (id : String) : dbBalancesNonneg (setBalance db id b) := by
  intro p hp
  rcases mem_updateFirst hp with h | ⟨q, hq, hpq⟩
  · exact hdb p h
  · rw [hpq]
    exact hb

/-- C2 as amended: starting from a store with non-negative balances, a
successful roulette or slots bet leaves every balance non-negative
(funds are checked against the stake in the same request, and the loss
never exceeds the stake); a blackjack settlement does so PROVIDED the
player balance still covers the session bet when settlement runs —
the handler itself re-checks nothing between start and settle. -/
theorem balances_nonneg_amended (db : DB) (hdb : dbBalancesNonneg db) :
    (∀ bet result db' resp, rouletteRequest db bet result = (db', Except.ok resp) →
      dbBalancesNonneg db') ∧
    (∀ bet r0 r1 r2 db' resp, slotsRequest db bet r0 r1 r2 = (db', Except.ok resp) →
      dbBalancesNonneg db') ∧
    (∀ sid session db' resp, settle_blackjack db sid = (db', Except.ok resp) →
      findSession db sid = some session →
      0 ≤ session.bet →
      (∀ player, findPlayer db session.playerId = some player →
        session.bet ≤ player.balance) →
      dbBalancesNonneg db') := by
  refine ⟨?_, ?_, ?_⟩
  · intro bet result db' resp h
    rcases rouletteRequest_ok h with ⟨player, payout, hamt, hp, hbal, hcase, hfin⟩
    have hfin1 := congrArg Prod.fst hfin
    simp only [rouletteFinish] at hfin1
    have hpayout : -bet.amount ≤ payout := by
      rcases hcase with ⟨_, hpay⟩ | ⟨_, v, _, hpay⟩
      · rw [hpay]
        split_ifs <;> linarith
      · rw [hpay]
        split_ifs <;> linarith
    have hnn : 0 ≤ player.balance + payout := by linarith
    rw [← hfin1]
    intro p hp'
    exact dbBalancesNonneg_setBalance hdb (round2_nonneg hnn) bet.playerId p hp'
  · intro bet r0 r1 r2 db' resp h
    rcases slotsRequest_ok h with ⟨player, hamt, hp, hbal, hreels, hpay, hrbal, hdbeq⟩
    have hpayout : -bet.amount ≤ bet.amount * (slotsMultiplier [r0, r1, r2] : ℚ) - bet.amount := by
      have hm : (0 : ℚ) ≤ (slotsMultiplier [r0, r1, r2] : ℚ) := by positivity
      nlinarith
    have hnn : 0 ≤ player.balance + (bet.amount * (slotsMultiplier [r0, r1, r2] : ℚ) - bet.amount) := by
      linarith
    rw [hdbeq]
    intro p hp'
    exact dbBalancesNonneg_setBalance hdb (round2_nonneg hnn) bet.playerId p hp'
  · intro sid session db' resp h hs hb hcover
    rcases settle_blackjack_ok h with ⟨session', player, deck', dealerHand', hs', hp, hd, hresp, hdbeq⟩
    rw [hs] at hs'
    cases hs'
    have hpayout := settleOutcome_ge_neg_bet session.bet (hand_value session.playerHand)
      (hand_value dealerHand') session.playerHand.length dealerHand'.length hb
    have hcov := hcover player hp
    have hnn : 0 ≤ player.balance + (settleOutcome session.bet (hand_value session.playerHand)
        (hand_value dealerHand') session.playerHand.length dealerHand'.length).1 := by
      linarith
    rw [hdbeq]
    intro p hp'
    exact dbBalancesNonneg_setBalance hdb (round2_nonneg hnn) session.playerId p hp'

/-! ## A reachable run in which an accepted bet drives the balance negative -/

/-- The bottom 48 cards of the rigged (but legal: four of each rank)
shuffle used below. -/
def cexDeck48 : List Rank :=
  List.replicate 4 Rank.ace ++ List.replicate 4 Rank.two ++
  List.replicate 4 Rank.three ++ List.replicate 4 Rank.four ++
  List.replicate 4 Rank.five ++ List.replicate 4 Rank.six ++
  List.replicate 4 Rank.seven ++ List.replicate 4 Rank.eight ++
  List.replicate 3 Rank.nine ++ List.replicate 4 Rank.ten ++
  List.replicate 4 Rank.jack ++ List.replicate 3 Rank.queen ++
  List.replicate 2 Rank.king

/-- A 52-card shuffle whose top four cards (popped from the end) deal
the player K,9 (19) and the dealer K,Q (20). -/
def cexDeck : List Rank := cexDeck48 ++ [Rank.queen, Rank.king, Rank.nine, Rank.king]

/-- Initial store of the run: one player with balance 100. -/
def cexDb0 : DB :=
  { players := [("p1", ⟨"n", 100, 0⟩)], sessions := [], history := [] }

/-- The blackjack session dealt from `cexDeck` with a 100-chip bet. -/
def cexSession : BJSessionRec :=
  ⟨"p1", 100, cexDeck48, [Rank.king, Rank.nine], [Rank.king, Rank.queen], BJStatus.playing⟩

/-- Store after the blackjack start: the stake is NOT debited, only the
session is created. -/
def cexDb1 : DB :=
  { players := [("p1", ⟨"n", 100, 0⟩)], sessions := [("s1", cexSession)], history := [] }

/-- Store after the interleaved losing roulette bet (100 on red, wheel
lands on 2 = black): balance 0, session still open. -/
def cexDb2 : DB :=
  { players := [("p1", ⟨"n", 0, 0⟩)], sessions := [("s1", cexSession)],
    history := [⟨"p1", "roulette", 100, "2 (black)", -100⟩] }

/-- Store after the stand: the dealer 20 beats the player 19, the
settlement debits 100 from a balance of 0, and the balance is −100. -/
def cexDb3 : DB :=
  { players := [("p1", ⟨"n", -100, 0⟩)],
    sessions := [("s1", ⟨"p1", 100, cexDeck48, [Rank.king, Rank.nine],
      [Rank.king, Rank.queen], BJStatus.finished⟩)],
    history := [⟨"p1", "blackjack", 100, "dealer_win", -100⟩,
      ⟨"p1", "roulette", 100, "2 (black)", -100⟩] }

/-- The wheel result of the interleaved bet: 2, a black number. -/
def rw2 : Fin 37 := ⟨2, by norm_num⟩

/-- C2 counterexample: a legal 52-card shuffle and a sequence of three
accepted operations — blackjack start (balance 100, bet 100, accepted),
an interleaved losing roulette bet (accepted, balance 100 ≥ 100), and
the stand — after which the stored balance is −100 < 0.  Every
operation succeeds; no step is rejected. -/
theorem accepted_bet_drives_balance_negative :
    (cexDeck.length = 52 ∧ ∀ r : Rank, cexDeck.count r = 4) ∧
    startRequest cexDb0 ⟨"p1", 100⟩ cexDeck "s1" =
      (cexDb1, Except.ok (StartResp.playing [Rank.king, Rank.nine] Rank.king)) ∧
    rouletteRequest cexDb1 ⟨"p1", 100, "red", none⟩ rw2 =
      (cexDb2, Except.ok ⟨rw2, "black", -100, 0⟩) ∧
    blackjack_stand cexDb2 "s1" =
      (cexDb3, Except.ok ⟨[Rank.king, Rank.nine], [Rank.king, Rank.queen], 19, 20,
        "dealer_win", -100, -100, "finished"⟩) ∧
    (findPlayer cexDb3 "p1").map (fun p => p.balance) = some (-100) ∧
    ((-100 : ℚ) < 0) := by
  have h0 := round2_intCast 0
  have hneg100 := round2_intCast (-100)
  have h100 := round2_intCast 100
  norm_num at h0 hneg100 h100
  refine ⟨by decide, ?_, ?_, ?_, by decide, by norm_num⟩
  · simp +decide [startRequest, validStart, blackjack_start, findPlayer, findFirst,
      cexDb0, cexDeck, cexDeck48, popEnd, createSession, cexDb1, cexSession,
      hand_value, reduceAces]
  · simp +decide [rouletteRequest, validRoulette, bet_roulette, findPlayer, findFirst,
      rouletteFinish, rouletteColor, redNumbers, cexDb1, cexDb2, cexSession, rw2,
      setBalance, appendHistory, updateFirst, hneg100, h0]
  · simp +decide [blackjack_stand, settle_blackjack, findSession, findPlayer, findFirst,
      cexDb2, cexDb3, cexSession, dealerDraw, dealerDrawRev, hand_value, reduceAces,
      settleOutcome, setBalance, appendHistory, updateSessionSettled, updateFirst,
      hneg100, h0]

/-- C2 amended witness: the invariant holds of the concrete store and
is preserved by a concrete successful roulette bet. -/
theorem balances_nonneg_amended_witness :
    dbBalancesNonneg cDb9 ∧ dbBalancesNonneg (rouletteRequest cDb9 cBet9 rw1).1 := by
  have hdb : dbBalancesNonneg cDb9 := by
    intro p hp
    simp only [cDb9, List.mem_singleton] at hp
    rw [hp]
    norm_num
  have h100 := round2_intCast 100
  have h1100 := round2_intCast 1100
  norm_num at h100 h1100
  have h2 : (rouletteRequest cDb9 cBet9 rw1).2 = Except.ok cResp9 := by
    simp +decide [rouletteRequest, validRoulette, bet_roulette, findPlayer, findFirst,
      rouletteFinish, rouletteColor, redNumbers, cDb9, cBet9, cResp9, rw1, h100]
    norm_num [h1100]
  exact ⟨hdb, (balances_nonneg_amended cDb9 hdb).1 cBet9 rw1 _ cResp9 (by rw [← h2])⟩

/-! ## Standing on a finished session settles — and pays — again -/

/-- A session that has already been settled once: the dealer stands on
18, the player 19 won, the 100-chip payout is already in the balance
(1000 → 1100), the status is `finished`. -/
def c1Session : BJSessionRec :=
  ⟨"p1", 100, cexDeck48, [Rank.king, Rank.nine], [Rank.king, Rank.eight], BJStatus.finished⟩

/-- Store after that first settlement. -/
def c1Db : DB :=
  { players := [("p1", ⟨"n", 1100, 0⟩)],
    sessions := [("s1", c1Session)],
    history := [⟨"p1", "blackjack", 100, "player_win", 100⟩] }

/-- Store after a SECOND stand on the same finished session: same
result, no new dealer card, but the balance is credited again and a
duplicate history record is appended. -/
def c1Db' : DB :=
  { players := [("p1", ⟨"n", 1200, 0⟩)],
    sessions := [("s1", c1Session)],
    history := [⟨"p1", "blackjack", 100, "player_win", 100⟩,
      ⟨"p1", "blackjack", 100, "player_win", 100⟩] }

/-- C1: `blackjack_stand` on an already-`finished` session re-runs the
whole settlement.  The dealer (18 ≥ 17) draws no further card and the
terminal result is the same `player_win` with payout 100 — but the
payout is applied to the balance a SECOND time (1100 → 1200) and a
duplicate history record is appended: the code double-pays. -/
theorem stand_on_finished_session_double_pays :
    (findSession c1Db "s1").map (fun s => s.status) = some BJStatus.finished ∧
    (findPlayer c1Db "p1").map (fun p => p.balance) = some 1100 ∧
    blackjack_stand c1Db "s1" =
      (c1Db', Except.ok ⟨[Rank.king, Rank.nine], [Rank.king, Rank.eight], 19, 18,
        "player_win", 100, 1200, "finished"⟩) ∧
    (findSession c1Db' "s1").map (fun s => s.dealerHand) =
      some [Rank.king, Rank.eight] ∧
    (findPlayer c1Db' "p1").map (fun p => p.balance) = some 1200 ∧
    c1Db'.history.length = c1Db.history.length + 1 := by
  have h100 := round2_intCast 100
  have h1200 := round2_intCast 1200
  norm_num at h100 h1200
  refine ⟨by decide, by decide, ?_, by decide, by decide, by decide⟩
  simp +decide [blackjack_stand, settle_blackjack, findSession, findPlayer, findFirst,
    c1Db, c1Db', c1Session, dealerDraw, dealerDrawRev, hand_value, reduceAces,
    settleOutcome, setBalance, appendHistory, updateSessionSettled, updateFirst, h100]
  norm_num [h1200]
